import Mathlib

/-!
Shallow embedding of `rocket-etagged-file-response` (src/lib.rs).

The crate serves static files with an ETag cache: `EtaggedFileResponse::from`
canonicalizes the requested path, looks up (or computes and stores) a CRC-64
fingerprint of the file's bytes in a shared `EtagMap`, compares it with the
client's `If-None-Match` entity tag, and builds either a "not modified"
response or a full response; the `Responder` impl (`respond_to`) turns the
struct into status/headers/body.

Filesystem access, the external `crc` crate's digest, and the external
`mime_guess` table are modelled explicitly below; the control flow of
`EtaggedFileResponse::from` and `respond_to` is translated line by line.
-/

set_option linter.unusedVariables false
set_option maxRecDepth 100000

namespace EtaggedFile

/-! ### CRC-64 (models `crc64::Digest::new(crc64::ECMA)` of the `crc` crate) -/

/-- All-ones 64-bit mask. -/
def mask64 : Nat := 2 ^ 64 - 1

/-- Bitwise complement on 64-bit values (`!value` in the crc crate). -/
def compl64 (v : Nat) : Nat := v ^^^ mask64

/-- The ECMA polynomial in the reversed (reflected) representation used by the
table-driven right-shift CRC-64 algorithm of the `crc` crate. -/
def crc64EcmaRev : Nat := 0xC96C5795D7870F42

/-- One table entry of `crc64::make_table`: eight reflected polynomial-division
steps applied to the byte index `i`. -/
def crcTableEntry (i : Nat) : Nat :=
  (List.range 8).foldl
    (fun v _ => if v % 2 = 1 then (v >>> 1) ^^^ crc64EcmaRev else v >>> 1) i

/-- One byte of `crc64::update`'s inner loop:
`value = table[((value as u8) ^ i) as usize] ^ (value >> 8)`. -/
def crcByteStep (value b : Nat) : Nat :=
  crcTableEntry ((value ^^^ b) &&& 0xFF) ^^^ (value >>> 8)

/-- `crc64::update`: complement the running value, fold the bytes through the
table, complement again.  `Digest::write` calls this once per chunk and
`Digest::sum64` returns the running value (initial value `0`). -/
def crcUpdate (value : Nat) (bytes : List Nat) : Nat :=
  compl64 (bytes.foldl crcByteStep (compl64 value))

/-- The CRC-64/ECMA checksum of a whole byte string, as the crc crate computes
it for a digest written in one piece. -/
def crcChecksum (bytes : List Nat) : Nat := crcUpdate 0 bytes

/-! ### The read loop's chunking

`EtaggedFileResponse::from` reads the file through a `BufReader` into a
4096-byte buffer (`FILE_RESPONSE_CHUNK_SIZE`), feeding each filled slice
`buffer[0..c]` to `Digest::write` until a read returns `0`. -/

/-- The chunk size constant `FILE_RESPONSE_CHUNK_SIZE`. -/
def FILE_RESPONSE_CHUNK_SIZE : Nat := 4096

/-- Chunk splitter with explicit fuel (structural recursion, so that the
kernel can evaluate it); `chunksOf` supplies enough fuel. -/
def chunksOfAux : Nat → List Nat → List (List Nat)
  | _, [] => []
  | 0, _ => []
  | f + 1, a :: t =>
    ((a :: t).take FILE_RESPONSE_CHUNK_SIZE)
      :: chunksOfAux f ((a :: t).drop FILE_RESPONSE_CHUNK_SIZE)

/-- Split a byte list into successive chunks of 4096 bytes (the last chunk may
be shorter); this is the sequence of slices the read loop feeds to the
digest. -/
def chunksOf (l : List Nat) : List (List Nat) :=
  chunksOfAux l.length l

/-- The digest value produced by the read loop: `Digest::write` applied to each
chunk in order, starting from the fresh digest's value `0`. -/
def digestOfChunks (chunks : List (List Nat)) : Nat :=
  chunks.foldl crcUpdate 0

/-! ### `format!("{:X}", crc64)` -/

/-- A single uppercase hexadecimal digit character. -/
def hexDigitChar (n : Nat) : Char :=
  if n < 10 then Char.ofNat (48 + n) else Char.ofNat (55 + n)

/-- Hex digits of a number, most significant first; `[]` for `0`.  The first
argument is fuel for structural recursion; any fuel at least the number of
hex digits gives the true digit list. -/
def upperHexCore : Nat → Nat → List Char
  | _, 0 => []
  | 0, _ => []
  | f + 1, n + 1 => upperHexCore f ((n + 1) / 16) ++ [hexDigitChar ((n + 1) % 16)]

/-- Rust's `format!("{:X}", v)`: uppercase hexadecimal with no padding and no
leading zeros; `0` renders as `"0"`.  (`n` itself is more than enough fuel,
since a positive number has at most as many hex digits as its value.) -/
def toUpperHex (n : Nat) : String :=
  if n = 0 then "0" else ⟨upperHexCore n n⟩

/-! ### The `EtagMap` (`Mutex<HashMap<String, String>>`)

The mutex serializes accesses; the sequential model works on the map value
directly.  The map is an association list looked up by first match; `from`
only ever inserts a key it has just found absent, so prepending is
observationally the `HashMap` insert. -/

/-- The shared path-to-fingerprint map. -/
abbrev EtagMap : Type := List (String × String)

/-- `HashMap::get` followed by `clone`. -/
def mapGet (m : EtagMap) (k : String) : Option String :=
  (List.find? (fun p => p.1 == k) m).map Prod.snd

/-- `HashMap::insert` as used by `from` (the key is known absent). -/
def mapInsert (m : EtagMap) (k v : String) : EtagMap :=
  (k, v) :: m

/-- `EtaggedFileResponse::new_etag_map`. -/
def new_etag_map : EtagMap := []

/-! ### Request-side and filesystem model -/

/-- `hyper`'s `EntityTag`: a weak flag and the tag text; `tag()` returns the
text without the weak marker. -/
structure EntityTag where
  weak : Bool
  tag : String
deriving DecidableEq, Repr

/-- The error kinds the responder can surface (`std::io::ErrorKind`). -/
inductive ErrKind where
  | notFound
  | invalidInput
  | permissionDenied
  | other
deriving DecidableEq, Repr

deriving instance DecidableEq, Repr for Except

/-- What the filesystem presents for a successfully canonicalized path. -/
structure FileData where
  /-- `path.to_str()`: the canonical path as UTF-8, `none` if invalid UTF-8. -/
  pathStr : Option String
  /-- `path.is_file()`. -/
  isFile : Bool
  /-- The file's byte content (used by the hashing read loop and the body). -/
  content : List Nat
  /-- `some e` if `File::open` or a `read` fails during fingerprint hashing. -/
  readErr : Option ErrKind
  /-- `fs::metadata(&path).len()`, or the error the metadata call fails with. -/
  metaLen : Except ErrKind Nat
  /-- `path.extension()`: `none` if absent; `some none` if not valid UTF-8;
  `some (some s)` for a UTF-8 extension `s`. -/
  ext : Option (Option String)
  /-- `some e` if the body-side `File::open` fails. -/
  bodyOpenErr : Option ErrKind
deriving DecidableEq, Repr

/-- The filesystem: `Path::canonicalize` composed with the data the rest of
`from` reads about the canonical path. -/
abbrev FS : Type := String → Except ErrKind FileData

/-- The outcome of a Rust call that may panic (`unwrap`), return `Err`, or
return `Ok`. -/
inductive Outcome (α : Type) where
  | panic
  | err (e : ErrKind)
  | ok (a : α)
deriving DecidableEq, Repr

/-- The response struct `EtaggedFileResponse` (its `data: Option<Box<Read>>`
is modelled by the bytes the opened file would stream). -/
structure EtaggedFileResponse where
  data : Option (List Nat)
  is_etag_match : Bool
  etag : String
  content_type : Option String
  content_length : Option Nat
deriving DecidableEq, Repr

/-- Result of one call to `EtaggedFileResponse::from`: the returned value, the
map after the call, and instrumentation: whether the file was opened and read
for hashing, and whether `fs::metadata` was queried. -/
structure FromResult where
  result : Outcome EtaggedFileResponse
  map : EtagMap
  hashed : Bool
  metaQueried : Bool
deriving DecidableEq, Repr

/-- The cache lookup / compute-and-insert step of `from`
(`etag_map.lock().unwrap().get(..)` and, when absent, the read loop, the
digest, and the `insert`).  Returns the ETag string, the map after the step,
and whether the file was opened and read for hashing. -/
def computeEtag (m : EtagMap) (path_str : String) (fd : FileData) :
    Except ErrKind (String × EtagMap × Bool) :=
  match mapGet m path_str with
  | some etag => .ok (etag, m, false)
  | none =>
    match fd.readErr with
    | some e => .error e
    | none =>
      let crc64 := digestOfChunks (chunksOf fd.content)
      let etag := toUpperHex crc64
      .ok (etag, mapInsert m path_str etag, true)

/-- One character of `str::to_lowercase` (extensions are ASCII in practice;
this models the lowercasing the code applies before the MIME lookup). -/
def asciiLower (c : Char) : Char :=
  if 65 ≤ c.toNat ∧ c.toNat ≤ 90 then Char.ofNat (c.toNat + 32) else c

/-- `str::to_lowercase` applied to the extension string. -/
def strToLower (s : String) : String := ⟨s.data.map asciiLower⟩

/-- The `is_etag_match` computation of `from`:
`match etag_if_none_match.etag { Some(r_etag) => r_etag.tag().eq(&etag), None => false }`. -/
def is_etag_match_of (etag_if_none_match : Option EntityTag) (etag : String) : Bool :=
  match etag_if_none_match with
  | some r_etag => r_etag.tag == etag
  | none => false

/-- The decision part of `from` after the ETag is known: the
`is_etag_match` comparison and the two `Ok(EtaggedFileResponse { .. })`
branches.  The second component records whether `fs::metadata` was called. -/
def buildResponse (mime : String → Option String) (fd : FileData)
    (etag_if_none_match : Option EntityTag) (etag : String) :
    Outcome EtaggedFileResponse × Bool :=
  let is_etag_match := is_etag_match_of etag_if_none_match etag
  if is_etag_match then
    (.ok { data := none, is_etag_match := true, etag := etag,
           content_type := none, content_length := none }, false)
  else
    match fd.metaLen with
    | .error e => (.err e, true)
    | .ok file_size =>
      match fd.ext with
      | some none => (.panic, true)
      | _ =>
        let content_type :=
          match fd.ext with
          | some (some extension) => mime (strToLower extension)
          | _ => none
        match fd.bodyOpenErr with
        | some e => (.err e, true)
        | none =>
          (.ok { data := some fd.content, is_etag_match := false,
                 etag := etag, content_type := content_type,
                 content_length := some file_size }, true)

/-- `EtaggedFileResponse::from(etag_map, etag_if_none_match, path)`, translated
line by line; `mime` models `mime_guess::get_mime_type_str`. -/
def fromFn (mime : String → Option String) (fs : FS) (m : EtagMap)
    (etag_if_none_match : Option EntityTag) (path : String) : FromResult :=
  match fs path with
  | .error e => { result := .err e, map := m, hashed := false, metaQueried := false }
  | .ok fd =>
    if !fd.isFile then
      { result := .err .invalidInput, map := m, hashed := false, metaQueried := false }
    else
      match fd.pathStr with
      | none => { result := .panic, map := m, hashed := false, metaQueried := false }
      | some path_str =>
        match computeEtag m path_str fd with
        | .error e =>
          { result := .err e, map := m, hashed := true, metaQueried := false }
        | .ok (etag, m', hashed) =>
          let built := buildResponse mime fd etag_if_none_match etag
          { result := built.1, map := m', hashed := hashed, metaQueried := built.2 }

/-! ### The `Responder` impl -/

/-- The response assembled by `respond_to` via `Response::build()`. -/
structure BuiltResponse where
  status : Nat
  headers : List (String × String)
  body : Option (List Nat)
deriving DecidableEq, Repr

/-- How `hyper` renders an `ETag` header from an `EntityTag`. -/
def etagHeaderValue (weak : Bool) (tag : String) : String :=
  (if weak then "W/" else "") ++ "\"" ++ tag ++ "\""

/-- `Responder::respond_to`: `none` models the panic of `self.data.unwrap()`;
otherwise the built response (default status of `Response::build` is 200). -/
def respond_to (r : EtaggedFileResponse) : Option BuiltResponse :=
  if r.is_etag_match then
    some { status := 304, headers := [], body := none }
  else
    match r.data with
    | none => none
    | some d =>
      some { status := 200,
             headers :=
               [("Etag", etagHeaderValue true r.etag)]
                 ++ (match r.content_type with
                     | some ct => [("Content-Type", ct)]
                     | none => [])
                 ++ (match r.content_length with
                     | some cl => [("Content-Length", toString cl)]
                     | none => []),
             body := some d }

/-! ### Concrete fixtures used by witnesses and counterexamples -/

/-- `'0'`-`'9'` or `'A'`-`'F'`. -/
def isUpperHexDigit (c : Char) : Bool :=
  (48 ≤ c.toNat && c.toNat ≤ 57) || (65 ≤ c.toNat && c.toNat ≤ 70)

/-- The bytes of `"hello"`. -/
def helloBytes : List Nat := [104, 101, 108, 108, 111]

/-- The bytes of `"hello2"`. -/
def hello2Bytes : List Nat := [104, 101, 108, 108, 111, 50]

/-- A regular file `/srv/a.txt` containing `"hello"`. -/
def fdHello : FileData :=
  { pathStr := some "/srv/a.txt", isFile := true, content := helloBytes,
    readErr := none, metaLen := .ok 5, ext := some (some "txt"),
    bodyOpenErr := none }

/-- The same file after its content changed on disk to `"hello2"`. -/
def fdHello2 : FileData :=
  { fdHello with content := hello2Bytes, metaLen := .ok 6 }

/-- A zero-byte regular file `/srv/empty.bin`. -/
def fdEmpty : FileData :=
  { pathStr := some "/srv/empty.bin", isFile := true, content := [],
    readErr := none, metaLen := .ok 0, ext := some (some "bin"),
    bodyOpenErr := none }

/-- A directory `/srv/dir` (canonicalizes fine, but is not a regular file). -/
def fdDir : FileData :=
  { pathStr := some "/srv/dir", isFile := false, content := [],
    readErr := none, metaLen := .ok 0, ext := none, bodyOpenErr := none }

/-- A regular file whose canonical path is not valid UTF-8. -/
def fdBadUtf8 : FileData := { fdHello with pathStr := none }

/-- A regular file whose extension is not valid UTF-8. -/
def fdBadExt : FileData := { fdHello with ext := some none }

/-- A regular file whose hashing read fails with a permission error. -/
def fdReadErr : FileData := { fdHello with readErr := some .permissionDenied }

/-- A tiny MIME table standing in for `mime_guess`. -/
def mime0 : String → Option String :=
  fun s => if s == "txt" then some "text/plain" else none

/-- A filesystem with `/srv/a.txt`, `/srv/empty.bin` and `/srv/dir`. -/
def fs0 : FS := fun p =>
  if p == "/srv/a.txt" then .ok fdHello
  else if p == "/srv/empty.bin" then .ok fdEmpty
  else if p == "/srv/dir" then .ok fdDir
  else .error .notFound

/-- The filesystem after `/srv/a.txt` changed on disk to `"hello2"`. -/
def fsChanged : FS := fun p =>
  if p == "/srv/a.txt" then .ok fdHello2 else .error .notFound

/-- A filesystem where every path resolves to the non-UTF-8 path. -/
def fsBadUtf8 : FS := fun _ => .ok fdBadUtf8

/-- A filesystem where every path resolves to the bad-extension file. -/
def fsBadExt : FS := fun _ => .ok fdBadExt

/-- A filesystem where every path resolves to the unreadable file. -/
def fsReadErr : FS := fun _ => .ok fdReadErr

/-- The fingerprint of `"hello"`. -/
def helloEtag : String := toUpperHex (crcChecksum helloBytes)

/-- The ETag carried by a successful `from` result (`None` on error/panic). -/
def resultEtag : Outcome EtaggedFileResponse → Option String
  | .ok r => some r.etag
  | .err _ => none
  | .panic => none

/-- The full response produced for `/srv/a.txt` on a cache miss with no
client validator. -/
def respHelloFull : EtaggedFileResponse :=
  { data := some helloBytes, is_etag_match := false, etag := helloEtag,
    content_type := some "text/plain", content_length := some 5 }

/-- The not-modified response produced for `/srv/a.txt` on a matching
validator. -/
def respHelloMatched : EtaggedFileResponse :=
  { data := none, is_etag_match := true, etag := helloEtag,
    content_type := none, content_length := none }

/-! ## Lemmas about the CRC-64 digest -/

theorem xor64_lt {x y : Nat} (hx : x < 2 ^ 64) (hy : y < 2 ^ 64) :
    x ^^^ y < 2 ^ 64 :=
  Nat.bitwise_lt hx hy

theorem mask64_lt : mask64 < 2 ^ 64 :=
  Nat.sub_lt (Nat.two_pow_pos 64) Nat.one_pos

theorem compl64_lt {v : Nat} (hv : v < 2 ^ 64) : compl64 v < 2 ^ 64 :=
  xor64_lt hv mask64_lt

theorem compl64_compl64 (v : Nat) : compl64 (compl64 v) = v := by
  simp [compl64, Nat.xor_assoc]

theorem crcUpdate_nil (v : Nat) : crcUpdate v [] = v := by
  simp [crcUpdate, compl64_compl64]

theorem crcUpdate_append (v : Nat) (a b : List Nat) :
    crcUpdate (crcUpdate v a) b = crcUpdate v (a ++ b) := by
  simp [crcUpdate, List.foldl_append, compl64_compl64]

theorem shiftRight_le (v k : Nat) : v >>> k ≤ v := by
  rw [Nat.shiftRight_eq_div_pow]
  exact Nat.div_le_self _ _

theorem crc64EcmaRev_lt : crc64EcmaRev < 2 ^ 64 := by decide

theorem foldl_lt_64 {α : Type} {f : Nat → α → Nat}
    (hf : ∀ v a, v < 2 ^ 64 → f v a < 2 ^ 64) :
    ∀ (l : List α) {v : Nat}, v < 2 ^ 64 → l.foldl f v < 2 ^ 64
  | [], _, hv => hv
  | a :: l, v, hv => foldl_lt_64 hf l (hf v a hv)

theorem crcTableEntry_lt {i : Nat} (hi : i < 2 ^ 64) : crcTableEntry i < 2 ^ 64 := by
  unfold crcTableEntry
  refine foldl_lt_64 (fun v a hv => ?_) (List.range 8) hi
  dsimp only
  split
  · exact xor64_lt (Nat.lt_of_le_of_lt (shiftRight_le v 1) hv) crc64EcmaRev_lt
  · exact Nat.lt_of_le_of_lt (shiftRight_le v 1) hv

theorem crcByteStep_lt {v : Nat} (b : Nat) (hv : v < 2 ^ 64) :
    crcByteStep v b < 2 ^ 64 := by
  unfold crcByteStep
  exact xor64_lt
    (crcTableEntry_lt (Nat.lt_of_le_of_lt Nat.and_le_right (by decide)))
    (Nat.lt_of_le_of_lt (shiftRight_le v 8) hv)

theorem crcUpdate_lt {v : Nat} (bytes : List Nat) (hv : v < 2 ^ 64) :
    crcUpdate v bytes < 2 ^ 64 := by
  unfold crcUpdate
  exact compl64_lt (foldl_lt_64 (fun w b hw => crcByteStep_lt b hw) bytes (compl64_lt hv))

theorem crcChecksum_lt (bytes : List Nat) : crcChecksum bytes < 2 ^ 64 :=
  crcUpdate_lt bytes (Nat.two_pow_pos 64)

theorem chunksOfAux_foldl :
    ∀ (f : Nat) (l : List Nat) (v : Nat), l.length ≤ f →
      (chunksOfAux f l).foldl crcUpdate v = crcUpdate v l := by
  intro f
  induction f with
  | zero =>
    intro l v hl
    match l with
    | [] => simp [chunksOfAux, crcUpdate_nil]
    | a :: t => simp at hl
  | succ f ih =>
    intro l v hl
    match l with
    | [] => simp [chunksOfAux, crcUpdate_nil]
    | a :: t =>
      simp only [chunksOfAux, List.foldl_cons]
      rw [ih ((a :: t).drop FILE_RESPONSE_CHUNK_SIZE)
            (crcUpdate v ((a :: t).take FILE_RESPONSE_CHUNK_SIZE))
            (by simp only [List.length_drop, List.length_cons, FILE_RESPONSE_CHUNK_SIZE]
                simp only [List.length_cons] at hl
                omega)]
      rw [crcUpdate_append, List.take_append_drop]

/-- The interesting fact behind the read loop: `Digest::write` applied to the
successive 4096-byte chunks of the file yields the CRC-64 checksum of the
whole byte content. -/
theorem digestOfChunks_chunksOf (l : List Nat) :
    digestOfChunks (chunksOf l) = crcChecksum l := by
  unfold digestOfChunks chunksOf crcChecksum
  exact chunksOfAux_foldl l.length l 0 (Nat.le_refl _)

/-! ## Lemmas about the hexadecimal rendering -/

theorem hexDigitChar_isUpperHexDigit : ∀ r < 16, isUpperHexDigit (hexDigitChar r) = true := by
  decide

theorem upperHexCore_all_hex :
    ∀ (f n : Nat), ∀ c ∈ upperHexCore f n, isUpperHexDigit c = true := by
  intro f
  induction f with
  | zero =>
    intro n c hc
    match n with
    | 0 => simp [upperHexCore] at hc
    | m + 1 => simp [upperHexCore] at hc
  | succ f ih =>
    intro n c hc
    match n with
    | 0 => simp [upperHexCore] at hc
    | m + 1 =>
      simp only [upperHexCore, List.mem_append, List.mem_singleton] at hc
      rcases hc with h | h
      · exact ih _ c h
      · subst h
        exact hexDigitChar_isUpperHexDigit _ (Nat.mod_lt _ (by omega))

theorem upperHexCore_length_le :
    ∀ (f k n : Nat), n < 16 ^ k → (upperHexCore f n).length ≤ k := by
  intro f
  induction f with
  | zero =>
    intro k n hn
    match n with
    | 0 => simp [upperHexCore]
    | m + 1 => simp [upperHexCore]
  | succ f ih =>
    intro k n hn
    match n with
    | 0 => simp [upperHexCore]
    | m + 1 =>
      match k with
      | 0 => simp at hn
      | j + 1 =>
        simp only [upperHexCore, List.length_append, List.length_singleton]
        have hd : (m + 1) / 16 < 16 ^ j := by
          refine Nat.div_lt_of_lt_mul ?_
          rw [pow_succ] at hn
          omega
        have := ih j ((m + 1) / 16) hd
        omega

theorem upperHexCore_length_pos (f n : Nat) (hf : f ≠ 0) (hn : n ≠ 0) :
    0 < (upperHexCore f n).length := by
  match f, n with
  | 0, _ => exact absurd rfl hf
  | _, 0 => exact absurd rfl hn
  | f + 1, m + 1 => simp [upperHexCore]

theorem toUpperHex_length_pos (n : Nat) : 0 < (toUpperHex n).length := by
  unfold toUpperHex
  split
  · decide
  · next h => simpa [String.length] using upperHexCore_length_pos n n h h

theorem toUpperHex_length_le {n : Nat} (hn : n < 2 ^ 64) :
    (toUpperHex n).length ≤ 16 := by
  unfold toUpperHex
  split
  · decide
  · have h16 : n < 16 ^ 16 := by
      have : (16 : Nat) ^ 16 = 2 ^ 64 := by norm_num
      omega
    simpa [String.length] using upperHexCore_length_le n 16 n h16

theorem toUpperHex_all_hex (n : Nat) :
    ∀ c ∈ (toUpperHex n).data, isUpperHexDigit c = true := by
  unfold toUpperHex
  split
  · intro c hc
    simp only [String.data] at hc
    simp at hc
    subst hc
    decide
  · intro c hc
    exact upperHexCore_all_hex n n c hc

/-! ## Structural lemmas about `from` -/

theorem computeEtag_cached {m : EtagMap} {s : String} {fd : FileData} {e : String}
    (h : mapGet m s = some e) : computeEtag m s fd = .ok (e, m, false) := by
  simp [computeEtag, h]

theorem computeEtag_fresh {m : EtagMap} {s : String} {fd : FileData}
    (h : mapGet m s = none) (hr : fd.readErr = none) :
    computeEtag m s fd =
      .ok (toUpperHex (crcChecksum fd.content),
           mapInsert m s (toUpperHex (crcChecksum fd.content)), true) := by
  simp [computeEtag, h, hr, digestOfChunks_chunksOf]

theorem computeEtag_readErr {m : EtagMap} {s : String} {fd : FileData} {e : ErrKind}
    (h : mapGet m s = none) (hr : fd.readErr = some e) :
    computeEtag m s fd = .error e := by
  simp [computeEtag, h, hr]

theorem computeEtag_map_cases {m : EtagMap} {s : String} {fd : FileData}
    {e : String} {m2 : EtagMap} {hsh : Bool}
    (h : computeEtag m s fd = .ok (e, m2, hsh)) :
    m2 = m ∨ (mapGet m s = none ∧ m2 = mapInsert m s e) := by
  unfold computeEtag at h
  split at h
  · left
    cases h
    rfl
  · next hnone =>
    split at h
    · cases h
    · right
      cases h
      exact ⟨hnone, rfl⟩

theorem mapGet_insert_of_none {m : EtagMap} {s k v e : String}
    (hk : mapGet m k = some v) (hs : mapGet m s = none) :
    mapGet (mapInsert m s e) k = some v := by
  have hne : (s == k) = false := by
    by_contra hcontra
    have : s = k := by
      cases hsk : s == k
      · exact absurd hsk hcontra
      · exact eq_of_beq hsk
    rw [this] at hs
    rw [hs] at hk
    cases hk
  simp [mapGet, mapInsert, List.find?, hne]
  simpa [mapGet] using hk

theorem fromFn_eq {mime : String → Option String} {fs : FS} {m : EtagMap}
    {client : Option EntityTag} {path : String} {fd : FileData} {s : String}
    (hfs : fs path = .ok fd) (hfile : fd.isFile = true) (hstr : fd.pathStr = some s) :
    fromFn mime fs m client path =
      match computeEtag m s fd with
      | .error e => { result := .err e, map := m, hashed := true, metaQueried := false }
      | .ok (etag, m2, hashed) =>
        { result := (buildResponse mime fd client etag).1, map := m2,
          hashed := hashed, metaQueried := (buildResponse mime fd client etag).2 } := by
  unfold fromFn
  rw [hfs]
  simp only [hfile, hstr, Bool.not_true]
  cases hce : computeEtag m s fd with
  | error e => simp
  | ok t =>
    obtain ⟨etag, m2, hashed⟩ := t
    simp

theorem is_etag_match_of_true_iff {client : Option EntityTag} {etag : String} :
    is_etag_match_of client etag = true ↔ ∃ t, client = some t ∧ t.tag = etag := by
  cases client with
  | none => simp [is_etag_match_of]
  | some t => simp [is_etag_match_of]

theorem buildResponse_matched {mime : String → Option String} {fd : FileData}
    {client : Option EntityTag} {etag : String}
    (hm : is_etag_match_of client etag = true) :
    buildResponse mime fd client etag =
      (.ok { data := none, is_etag_match := true, etag := etag,
             content_type := none, content_length := none }, false) := by
  simp [buildResponse, hm]

theorem buildResponse_ok {mime : String → Option String} {fd : FileData}
    {client : Option EntityTag} {etag : String} {r : EtaggedFileResponse}
    (h : (buildResponse mime fd client etag).1 = .ok r) :
    r.etag = etag ∧
    (r.is_etag_match = true ↔ ∃ t, client = some t ∧ t.tag = etag) ∧
    (r.is_etag_match = false →
      r.data = some fd.content ∧ ∃ len, fd.metaLen = .ok len ∧ r.content_length = some len) := by
  by_cases hm : is_etag_match_of client etag = true
  · rw [buildResponse_matched hm] at h
    cases h
    refine ⟨rfl, ?_, ?_⟩
    · simpa using is_etag_match_of_true_iff.mp hm
    · intro hfalse
      cases hfalse
  · have hm' : is_etag_match_of client etag = false := by
      simpa using hm
    have hnot : ¬ ∃ t, client = some t ∧ t.tag = etag := by
      intro hex
      exact hm (is_etag_match_of_true_iff.mpr hex)
    simp only [buildResponse, hm', Bool.false_eq_true, if_false] at h
    split at h
    · cases h
    · next file_size hmeta =>
      split at h
      · cases h
      · next hext =>
        split at h
        · cases h
        · cases h
          refine ⟨rfl, ?_, ?_⟩
          · simp only [Bool.false_eq_true, false_iff]
            exact hnot
          · intro _
            exact ⟨rfl, file_size, hmeta, rfl⟩

theorem fromFn_fsError {mime : String → Option String} {fs : FS} {m : EtagMap}
    {client : Option EntityTag} {path : String} {e : ErrKind}
    (h : fs path = .error e) :
    fromFn mime fs m client path =
      { result := .err e, map := m, hashed := false, metaQueried := false } := by
  unfold fromFn
  rw [h]

theorem fromFn_notFile {mime : String → Option String} {fs : FS} {m : EtagMap}
    {client : Option EntityTag} {path : String} {fd : FileData}
    (h : fs path = .ok fd) (hf : fd.isFile = false) :
    fromFn mime fs m client path =
      { result := .err .invalidInput, map := m, hashed := false, metaQueried := false } := by
  unfold fromFn
  rw [h]
  simp [hf]

theorem fromFn_badPath {mime : String → Option String} {fs : FS} {m : EtagMap}
    {client : Option EntityTag} {path : String} {fd : FileData}
    (h : fs path = .ok fd) (hf : fd.isFile = true) (hp : fd.pathStr = none) :
    fromFn mime fs m client path =
      { result := .panic, map := m, hashed := false, metaQueried := false } := by
  unfold fromFn
  rw [h]
  simp [hf, hp]

theorem buildResponse_weak_indep {mime : String → Option String} {fd : FileData}
    {tag etag : String} (w1 w2 : Bool) :
    buildResponse mime fd (some ⟨w1, tag⟩) etag
      = buildResponse mime fd (some ⟨w2, tag⟩) etag := by
  simp [buildResponse, is_etag_match_of]

theorem mapGet_insert_self (m : EtagMap) (s e : String) :
    mapGet (mapInsert m s e) s = some e := by
  simp [mapGet, mapInsert, List.find?]

theorem toUpperHex_ne_empty (n : Nat) : toUpperHex n ≠ "" := by
  intro h
  have := toUpperHex_length_pos n
  rw [h] at this
  simp at this

theorem fromFn_map_cases (mime : String → Option String) (fs : FS) (m : EtagMap)
    (client : Option EntityTag) (path : String) :
    (fromFn mime fs m client path).map = m ∨
    ∃ s etag, mapGet m s = none ∧
      (fromFn mime fs m client path).map = mapInsert m s etag := by
  cases hfs : fs path with
  | error e => left; rw [fromFn_fsError hfs]
  | ok fd =>
    cases hfile : fd.isFile with
    | false => left; rw [fromFn_notFile hfs hfile]
    | true =>
      cases hstr : fd.pathStr with
      | none => left; rw [fromFn_badPath hfs hfile hstr]
      | some s =>
        rw [fromFn_eq hfs hfile hstr]
        cases hce : computeEtag m s fd with
        | error e => left; rfl
        | ok t =>
          obtain ⟨etag, m2, hashed⟩ := t
          rcases computeEtag_map_cases hce with h | ⟨hn, h⟩
          · left
            simpa using h
          · right
            exact ⟨s, etag, hn, by simpa using h⟩

/-! ## The claims -/

/-- C7: the responder fails with `NotFound` when canonicalization fails
because the path does not exist, and with `InvalidInput` when the resolved
target is not a regular file; both are returned to the caller directly. -/
theorem c7_resolution_errors (mime : String → Option String) (fs : FS)
    (m : EtagMap) (client : Option EntityTag) (path : String) :
    (fs path = .error .notFound →
      fromFn mime fs m client path =
        { result := .err .notFound, map := m, hashed := false, metaQueried := false }) ∧
    (∀ fd, fs path = .ok fd → fd.isFile = false →
      fromFn mime fs m client path =
        { result := .err .invalidInput, map := m, hashed := false, metaQueried := false }) := by
  constructor
  · intro h
    unfold fromFn
    rw [h]
  · intro fd h hfile
    unfold fromFn
    rw [h]
    simp [hfile]

/-- C7 witness: a missing path gives `NotFound`, a directory gives
`InvalidInput`. -/
theorem c7_witness :
    (fs0 "/srv/missing.txt" = .error .notFound ∧
      fromFn mime0 fs0 [] none "/srv/missing.txt" =
        { result := .err .notFound, map := [], hashed := false, metaQueried := false }) ∧
    (fs0 "/srv/dir" = .ok fdDir ∧ fdDir.isFile = false ∧
      fromFn mime0 fs0 [] none "/srv/dir" =
        { result := .err .invalidInput, map := [], hashed := false, metaQueried := false }) :=
  ⟨⟨by decide,
    (c7_resolution_errors mime0 fs0 [] none "/srv/missing.txt").1 (by decide)⟩,
   ⟨by decide, by decide,
    (c7_resolution_errors mime0 fs0 [] none "/srv/dir").2 fdDir (by decide) (by decide)⟩⟩

/-- C8: an I/O error during the fingerprint read loop propagates to the
caller and aborts the request with the fingerprint store unchanged (no entry
inserted for the path). -/
theorem c8_read_error_not_cached (mime : String → Option String) (fs : FS)
    (m : EtagMap) (client : Option EntityTag) (path : String)
    (fd : FileData) (s : String) (e : ErrKind)
    (hfs : fs path = .ok fd) (hfile : fd.isFile = true) (hstr : fd.pathStr = some s)
    (hcache : mapGet m s = none) (hread : fd.readErr = some e) :
    fromFn mime fs m client path =
      { result := .err e, map := m, hashed := true, metaQueried := false } := by
  rw [fromFn_eq hfs hfile hstr, computeEtag_readErr hcache hread]

/-- C8 witness: a permission error while reading `/srv/a.txt` surfaces as an
error and leaves the (empty) store empty. -/
theorem c8_witness :
    fsReadErr "/srv/a.txt" = .ok fdReadErr ∧
    fdReadErr.isFile = true ∧
    fdReadErr.pathStr = some "/srv/a.txt" ∧
    mapGet [] "/srv/a.txt" = none ∧
    fdReadErr.readErr = some .permissionDenied ∧
    fromFn mime0 fsReadErr [] none "/srv/a.txt" =
      { result := .err .permissionDenied, map := [], hashed := true, metaQueried := false } :=
  ⟨by decide, by decide, by decide, by decide, by decide,
   c8_read_error_not_cached mime0 fsReadErr [] none "/srv/a.txt" fdReadErr
     "/srv/a.txt" .permissionDenied (by decide) (by decide) (by decide) (by decide) (by decide)⟩

/-- C1: the outcome is `Matched` exactly when a client validator is supplied
whose tag equals the computed fingerprint; otherwise the outcome is `Changed`
and the response carries the current fingerprint (in its `etag` field and in
the `Etag` header of the built response). -/
theorem c1_matched_iff_validator (mime : String → Option String) (fs : FS)
    (m : EtagMap) (client : Option EntityTag) (path : String)
    (fd : FileData) (s etag : String) (m2 : EtagMap) (hsh : Bool)
    (r : EtaggedFileResponse)
    (hfs : fs path = .ok fd) (hfile : fd.isFile = true) (hstr : fd.pathStr = some s)
    (hce : computeEtag m s fd = .ok (etag, m2, hsh))
    (h : (fromFn mime fs m client path).result = .ok r) :
    (r.is_etag_match = true ↔ ∃ t, client = some t ∧ t.tag = etag) ∧
    r.etag = etag ∧
    (r.is_etag_match = false →
      ∃ b, respond_to r = some b ∧ ("Etag", etagHeaderValue true etag) ∈ b.headers) := by
  rw [fromFn_eq hfs hfile hstr, hce] at h
  have hb : (buildResponse mime fd client etag).1 = .ok r := h
  obtain ⟨hetag, hiff, hchanged⟩ := buildResponse_ok hb
  refine ⟨hiff, hetag, ?_⟩
  intro hfalse
  obtain ⟨hdata, len, hmeta, hlen⟩ := hchanged hfalse
  have hr : respond_to r =
      some { status := 200,
             headers :=
               [("Etag", etagHeaderValue true r.etag)]
                 ++ (match r.content_type with
                     | some ct => [("Content-Type", ct)]
                     | none => [])
                 ++ (match r.content_length with
                     | some cl => [("Content-Length", toString cl)]
                     | none => []),
             body := some fd.content } := by
    unfold respond_to
    simp only [hfalse, Bool.false_eq_true, if_false, hdata]
  refine ⟨_, hr, ?_⟩
  rw [hetag]
  simp

/-- C1 witness: the full-response case at `/srv/a.txt` with no client
validator. -/
theorem c1_witness :
    (fs0 "/srv/a.txt" = .ok fdHello ∧ fdHello.isFile = true ∧
      fdHello.pathStr = some "/srv/a.txt" ∧
      computeEtag [] "/srv/a.txt" fdHello
        = .ok (helloEtag, [("/srv/a.txt", helloEtag)], true) ∧
      (fromFn mime0 fs0 [] none "/srv/a.txt").result = .ok respHelloFull) ∧
    ((respHelloFull.is_etag_match = true ↔
        ∃ t, (none : Option EntityTag) = some t ∧ t.tag = helloEtag) ∧
      respHelloFull.etag = helloEtag ∧
      (respHelloFull.is_etag_match = false →
        ∃ b, respond_to respHelloFull = some b ∧
          ("Etag", etagHeaderValue true helloEtag) ∈ b.headers)) :=
  ⟨⟨by decide, by decide, by decide, by decide, by decide⟩,
   c1_matched_iff_validator mime0 fs0 [] none "/srv/a.txt" fdHello "/srv/a.txt"
     helloEtag [("/srv/a.txt", helloEtag)] true respHelloFull
     (by decide) (by decide) (by decide) (by decide) (by decide)⟩

/-- C2: for a path not yet cached, the fingerprint stored for it is computed
by folding the CRC-64 digest over the 4096-byte chunks of the file content,
which equals the CRC-64/ECMA checksum of the whole content; the rendering is
a non-empty uppercase-hexadecimal string (in particular a zero-byte file gets
the well-defined fingerprint of the empty input). -/
theorem c2_fresh_fingerprint_is_crc64 (mime : String → Option String) (fs : FS)
    (m : EtagMap) (client : Option EntityTag) (path : String)
    (fd : FileData) (s : String)
    (hfs : fs path = .ok fd) (hfile : fd.isFile = true) (hstr : fd.pathStr = some s)
    (hcache : mapGet m s = none) (hread : fd.readErr = none) :
    mapGet (fromFn mime fs m client path).map s
      = some (toUpperHex (digestOfChunks (chunksOf fd.content))) ∧
    digestOfChunks (chunksOf fd.content) = crcChecksum fd.content ∧
    toUpperHex (crcChecksum fd.content) ≠ "" ∧
    (∀ c ∈ (toUpperHex (crcChecksum fd.content)).data, isUpperHexDigit c = true) := by
  refine ⟨?_, digestOfChunks_chunksOf fd.content, toUpperHex_ne_empty _,
    toUpperHex_all_hex _⟩
  rw [fromFn_eq hfs hfile hstr, computeEtag_fresh hcache hread,
    digestOfChunks_chunksOf]
  exact mapGet_insert_self m s _

/-- C2 witness: the zero-byte file `/srv/empty.bin` gets fingerprint `"0"`,
the checksum of empty input. -/
theorem c2_witness :
    (fs0 "/srv/empty.bin" = .ok fdEmpty ∧ fdEmpty.isFile = true ∧
      fdEmpty.pathStr = some "/srv/empty.bin" ∧
      mapGet [] "/srv/empty.bin" = none ∧ fdEmpty.readErr = none) ∧
    (mapGet (fromFn mime0 fs0 [] none "/srv/empty.bin").map "/srv/empty.bin"
        = some (toUpperHex (digestOfChunks (chunksOf fdEmpty.content))) ∧
      digestOfChunks (chunksOf fdEmpty.content) = crcChecksum fdEmpty.content ∧
      toUpperHex (crcChecksum fdEmpty.content) ≠ "" ∧
      (∀ c ∈ (toUpperHex (crcChecksum fdEmpty.content)).data,
        isUpperHexDigit c = true)) ∧
    toUpperHex (crcChecksum fdEmpty.content) = "0" :=
  ⟨⟨by decide, by decide, by decide, by decide, by decide⟩,
   c2_fresh_fingerprint_is_crc64 mime0 fs0 [] none "/srv/empty.bin" fdEmpty
     "/srv/empty.bin" (by decide) (by decide) (by decide) (by decide) (by decide),
   by decide⟩

/-- C3: a cached path is answered from the store without hashing and leaves
the store unchanged; an uncached path is hashed once, stored under the
canonical path and returned; and a second sequential call for the same path
does not hash again. -/
theorem c3_hash_at_most_once (mime : String → Option String) (fs : FS)
    (m : EtagMap) (client client2 : Option EntityTag) (path : String)
    (fd : FileData) (s : String)
    (hfs : fs path = .ok fd) (hfile : fd.isFile = true) (hstr : fd.pathStr = some s) :
    (∀ e, mapGet m s = some e →
      (fromFn mime fs m client path).hashed = false ∧
      (fromFn mime fs m client path).map = m ∧
      ∀ r, (fromFn mime fs m client path).result = .ok r → r.etag = e) ∧
    (mapGet m s = none → fd.readErr = none →
      (fromFn mime fs m client path).hashed = true ∧
      mapGet (fromFn mime fs m client path).map s
        = some (toUpperHex (crcChecksum fd.content)) ∧
      ∀ r, (fromFn mime fs m client path).result = .ok r →
        r.etag = toUpperHex (crcChecksum fd.content)) ∧
    (fd.readErr = none →
      (fromFn mime fs (fromFn mime fs m client path).map client2 path).hashed
        = false) := by
  refine ⟨?_, ?_, ?_⟩
  · intro e he
    rw [fromFn_eq hfs hfile hstr, computeEtag_cached he]
    refine ⟨rfl, rfl, ?_⟩
    intro r h
    exact (buildResponse_ok h).1
  · intro hcache hread
    rw [fromFn_eq hfs hfile hstr, computeEtag_fresh hcache hread]
    refine ⟨rfl, mapGet_insert_self m s _, ?_⟩
    intro r h
    exact (buildResponse_ok h).1
  · intro hread
    cases hc : mapGet m s with
    | some e =>
      have hmap : (fromFn mime fs m client path).map = m := by
        rw [fromFn_eq hfs hfile hstr, computeEtag_cached hc]
      rw [hmap, fromFn_eq hfs hfile hstr, computeEtag_cached hc]
    | none =>
      have hmap : (fromFn mime fs m client path).map
          = mapInsert m s (toUpperHex (crcChecksum fd.content)) := by
        rw [fromFn_eq hfs hfile hstr, computeEtag_fresh hc hread]
      rw [hmap, fromFn_eq hfs hfile hstr,
        computeEtag_cached (mapGet_insert_self m s _)]

/-- C3 witness: first call on `/srv/a.txt` hashes and stores `F(hello)`;
a second call does not hash. -/
theorem c3_witness :
    (fs0 "/srv/a.txt" = .ok fdHello ∧ fdHello.isFile = true ∧
      fdHello.pathStr = some "/srv/a.txt" ∧
      mapGet [] "/srv/a.txt" = none ∧ fdHello.readErr = none) ∧
    ((fromFn mime0 fs0 [] none "/srv/a.txt").hashed = true ∧
      mapGet (fromFn mime0 fs0 [] none "/srv/a.txt").map "/srv/a.txt"
        = some (toUpperHex (crcChecksum fdHello.content)) ∧
      ∀ r, (fromFn mime0 fs0 [] none "/srv/a.txt").result = .ok r →
        r.etag = toUpperHex (crcChecksum fdHello.content)) ∧
    (fromFn mime0 fs0 (fromFn mime0 fs0 [] none "/srv/a.txt").map none
        "/srv/a.txt").hashed = false :=
  ⟨⟨by decide, by decide, by decide, by decide, by decide⟩,
   (c3_hash_at_most_once mime0 fs0 [] none none "/srv/a.txt" fdHello "/srv/a.txt"
       (by decide) (by decide) (by decide)).2.1 (by decide) (by decide),
   (c3_hash_at_most_once mime0 fs0 [] none none "/srv/a.txt" fdHello "/srv/a.txt"
       (by decide) (by decide) (by decide)).2.2 (by decide)⟩

/-- C4: existing store entries are never removed or overwritten by a call,
and a cached path keeps answering with the stored fingerprint even when the
file's content on disk has changed (the new bytes are served under the old
validator). -/
theorem c4_no_invalidation (mime : String → Option String) (fs : FS)
    (m : EtagMap) (client : Option EntityTag) (path : String) :
    (∀ k v, mapGet m k = some v →
      mapGet (fromFn mime fs m client path).map k = some v) ∧
    (∀ fd s e, fs path = .ok fd → fd.isFile = true → fd.pathStr = some s →
      mapGet m s = some e →
      (fromFn mime fs m client path).map = m ∧
      ∀ r, (fromFn mime fs m client path).result = .ok r →
        r.etag = e ∧ (r.is_etag_match = false → r.data = some fd.content)) := by
  constructor
  · intro k v hk
    rcases fromFn_map_cases mime fs m client path with h | ⟨s, etag, hn, h⟩
    · rw [h]
      exact hk
    · rw [h]
      exact mapGet_insert_of_none hk hn
  · intro fd s e hfs hfile hstr he
    rw [fromFn_eq hfs hfile hstr, computeEtag_cached he]
    refine ⟨rfl, ?_⟩
    intro r h
    obtain ⟨hetag, _, hchanged⟩ := buildResponse_ok h
    exact ⟨hetag, fun hfalse => (hchanged hfalse).1⟩

/-- C4 witness: with `F(hello)` cached for `/srv/a.txt` and the file changed
on disk to `"hello2"`, the response still carries `F(hello)` and serves the
new bytes. -/
theorem c4_witness :
    (mapGet [("/srv/b.txt", "AA")] "/srv/b.txt" = some "AA" ∧
      mapGet (fromFn mime0 fsChanged [("/srv/b.txt", "AA")] none "/srv/a.txt").map
        "/srv/b.txt" = some "AA") ∧
    (fsChanged "/srv/a.txt" = .ok fdHello2 ∧ fdHello2.isFile = true ∧
      fdHello2.pathStr = some "/srv/a.txt" ∧
      mapGet [("/srv/a.txt", helloEtag)] "/srv/a.txt" = some helloEtag ∧
      (fromFn mime0 fsChanged [("/srv/a.txt", helloEtag)] none "/srv/a.txt").map
        = [("/srv/a.txt", helloEtag)] ∧
      ∀ r, (fromFn mime0 fsChanged [("/srv/a.txt", helloEtag)] none
          "/srv/a.txt").result = .ok r →
        r.etag = helloEtag ∧ (r.is_etag_match = false → r.data = some fdHello2.content)) :=
  ⟨⟨by decide,
    (c4_no_invalidation mime0 fsChanged [("/srv/b.txt", "AA")] none "/srv/a.txt").1
      "/srv/b.txt" "AA" (by decide)⟩,
   ⟨by decide, by decide, by decide, by decide,
    ((c4_no_invalidation mime0 fsChanged [("/srv/a.txt", helloEtag)] none
        "/srv/a.txt").2 fdHello2 "/srv/a.txt" helloEtag (by decide) (by decide)
        (by decide) (by decide)).1,
    ((c4_no_invalidation mime0 fsChanged [("/srv/a.txt", helloEtag)] none
        "/srv/a.txt").2 fdHello2 "/srv/a.txt" helloEtag (by decide) (by decide)
        (by decide) (by decide)).2⟩⟩

/-- C5: on a `Matched` outcome the response struct carries no body, no
content type and no content length; the built response has the
"not modified" status with empty headers and no body; `fs::metadata` is not
queried; and the result does not depend on the MIME table at all. -/
theorem c5_matched_entire_response (mime : String → Option String) (fs : FS)
    (m : EtagMap) (client : Option EntityTag) (path : String)
    (r : EtaggedFileResponse)
    (h : (fromFn mime fs m client path).result = .ok r)
    (hm : r.is_etag_match = true) :
    r.data = none ∧ r.content_type = none ∧ r.content_length = none ∧
    (fromFn mime fs m client path).metaQueried = false ∧
    respond_to r = some { status := 304, headers := [], body := none } ∧
    (∀ mime2, fromFn mime2 fs m client path = fromFn mime fs m client path) := by
  cases hfs : fs path with
  | error e =>
    rw [fromFn_fsError hfs] at h
    cases h
  | ok fd =>
    cases hfile : fd.isFile with
    | false =>
      rw [fromFn_notFile hfs hfile] at h
      cases h
    | true =>
      cases hstr : fd.pathStr with
      | none =>
        rw [fromFn_badPath hfs hfile hstr] at h
        cases h
      | some s =>
        rw [fromFn_eq hfs hfile hstr] at h
        cases hce : computeEtag m s fd with
        | error e =>
          rw [hce] at h
          cases h
        | ok t =>
          obtain ⟨etag, m2, hashed⟩ := t
          rw [hce] at h
          have hb : (buildResponse mime fd client etag).1 = .ok r := h
          by_cases hmatch : is_etag_match_of client etag = true
          · have hbm := @buildResponse_matched mime fd client etag hmatch
            rw [hbm] at hb
            injection hb with hb2
            subst hb2
            refine ⟨rfl, rfl, rfl, ?_, rfl, ?_⟩
            · rw [fromFn_eq hfs hfile hstr, hce]
              show (buildResponse mime fd client etag).2 = false
              rw [hbm]
            · intro mime2
              rw [fromFn_eq hfs hfile hstr, fromFn_eq hfs hfile hstr, hce]
              dsimp only
              rw [@buildResponse_matched mime2 fd client etag hmatch, hbm]
          · exfalso
            obtain ⟨_, hiff, _⟩ := buildResponse_ok hb
            exact hmatch (is_etag_match_of_true_iff.mpr (hiff.mp hm))

/-- C5 witness: a client validator equal to `F(hello)` on the first request
for `/srv/a.txt` produces the bare not-modified response. -/
theorem c5_witness :
    ((fromFn mime0 fs0 [] (some ⟨false, helloEtag⟩) "/srv/a.txt").result
        = .ok respHelloMatched ∧
      respHelloMatched.is_etag_match = true) ∧
    ((fromFn mime0 fs0 [] (some ⟨false, helloEtag⟩) "/srv/a.txt").metaQueried
        = false ∧
      respond_to respHelloMatched
        = some { status := 304, headers := [], body := none }) :=
  ⟨⟨by decide, by decide⟩,
   ⟨((c5_matched_entire_response mime0 fs0 [] (some ⟨false, helloEtag⟩)
        "/srv/a.txt" respHelloMatched (by decide) (by decide))).2.2.2.1,
    ((c5_matched_entire_response mime0 fs0 [] (some ⟨false, helloEtag⟩)
        "/srv/a.txt" respHelloMatched (by decide) (by decide))).2.2.2.2.1⟩⟩

/-- C6 counterexample: fingerprints are not fixed-width. The zero-byte file
is fingerprinted `"0"` (one character) while `/srv/a.txt` gets a sixteen
character fingerprint: the rendered width depends on the numeric value. -/
theorem c6_counterexample :
    resultEtag (fromFn mime0 fs0 [] none "/srv/empty.bin").result = some "0" ∧
    resultEtag (fromFn mime0 fs0 [] none "/srv/a.txt").result
      = some "9B1EDAE5DBB937B1" ∧
    ("0" : String).length = 1 ∧ ("9B1EDAE5DBB937B1" : String).length = 16 := by
  refine ⟨by decide, by decide, by decide, by decide⟩

/-- C6 (amended): every fingerprint stored in the mapping and returned to the
client is a non-empty uppercase-hexadecimal rendering of the 64-bit checksum
of at most 16 characters; its width varies with the numeric value (no
zero-padding) rather than being fixed. -/
theorem c6_amended_hex_shape (mime : String → Option String) (fs : FS)
    (m : EtagMap) (client : Option EntityTag) (path : String)
    (fd : FileData) (s : String)
    (hfs : fs path = .ok fd) (hfile : fd.isFile = true) (hstr : fd.pathStr = some s)
    (hcache : mapGet m s = none) (hread : fd.readErr = none) :
    ∃ e, mapGet (fromFn mime fs m client path).map s = some e ∧
      0 < e.length ∧ e.length ≤ 16 ∧
      (∀ c ∈ e.data, isUpperHexDigit c = true) ∧
      ∀ r, (fromFn mime fs m client path).result = .ok r → r.etag = e := by
  refine ⟨toUpperHex (crcChecksum fd.content), ?_, toUpperHex_length_pos _,
    toUpperHex_length_le (crcChecksum_lt fd.content), toUpperHex_all_hex _, ?_⟩
  · rw [fromFn_eq hfs hfile hstr, computeEtag_fresh hcache hread]
    exact mapGet_insert_self m s _
  · intro r h
    rw [fromFn_eq hfs hfile hstr, computeEtag_fresh hcache hread] at h
    exact (buildResponse_ok h).1

/-- C6 (amended) witness: the amended shape at the zero-byte file. -/
theorem c6_amended_witness :
    (fs0 "/srv/empty.bin" = .ok fdEmpty ∧ fdEmpty.isFile = true ∧
      fdEmpty.pathStr = some "/srv/empty.bin" ∧
      mapGet [] "/srv/empty.bin" = none ∧ fdEmpty.readErr = none) ∧
    (∃ e, mapGet (fromFn mime0 fs0 [] none "/srv/empty.bin").map "/srv/empty.bin"
        = some e ∧
      0 < e.length ∧ e.length ≤ 16 ∧
      (∀ c ∈ e.data, isUpperHexDigit c = true) ∧
      ∀ r, (fromFn mime0 fs0 [] none "/srv/empty.bin").result = .ok r →
        r.etag = e) :=
  ⟨⟨by decide, by decide, by decide, by decide, by decide⟩,
   c6_amended_hex_shape mime0 fs0 [] none "/srv/empty.bin" fdEmpty
     "/srv/empty.bin" (by decide) (by decide) (by decide) (by decide) (by decide)⟩

/-- C9: a canonical path that is not valid UTF-8 makes the responder panic
(`to_str().unwrap()`), and on the `Changed` branch a non-UTF-8 extension
panics as well, instead of returning a typed error. -/
theorem c9_non_utf8_panics (mime : String → Option String) (fs : FS)
    (m : EtagMap) (client : Option EntityTag) (path : String) (fd : FileData)
    (hfs : fs path = .ok fd) (hfile : fd.isFile = true) :
    (fd.pathStr = none → (fromFn mime fs m client path).result = .panic) ∧
    (∀ s etag m2 hsh len, fd.pathStr = some s →
      computeEtag m s fd = .ok (etag, m2, hsh) →
      is_etag_match_of client etag = false →
      fd.metaLen = .ok len →
      fd.ext = some none →
      (fromFn mime fs m client path).result = .panic) := by
  constructor
  · intro hp
    rw [fromFn_badPath hfs hfile hp]
  · intro s etag m2 hsh len hstr hce hmatch hmeta hext
    rw [fromFn_eq hfs hfile hstr, hce]
    show (buildResponse mime fd client etag).1 = .panic
    simp [buildResponse, hmatch, hmeta, hext]

/-- C9 witness: a non-UTF-8 canonical path panics; a non-UTF-8 extension on
the changed branch panics. -/
theorem c9_witness :
    (fsBadUtf8 "/srv/a.txt" = .ok fdBadUtf8 ∧ fdBadUtf8.isFile = true ∧
      fdBadUtf8.pathStr = none ∧
      (fromFn mime0 fsBadUtf8 [] none "/srv/a.txt").result = .panic) ∧
    (fsBadExt "/srv/a.txt" = .ok fdBadExt ∧ fdBadExt.isFile = true ∧
      fdBadExt.pathStr = some "/srv/a.txt" ∧
      computeEtag [] "/srv/a.txt" fdBadExt
        = .ok (helloEtag, [("/srv/a.txt", helloEtag)], true) ∧
      is_etag_match_of none helloEtag = false ∧
      fdBadExt.metaLen = .ok 5 ∧ fdBadExt.ext = some none ∧
      (fromFn mime0 fsBadExt [] none "/srv/a.txt").result = .panic) :=
  ⟨⟨by decide, by decide, by decide,
    (c9_non_utf8_panics mime0 fsBadUtf8 [] none "/srv/a.txt" fdBadUtf8
        (by decide) (by decide)).1 (by decide)⟩,
   ⟨by decide, by decide, by decide, by decide, by decide, by decide, by decide,
    (c9_non_utf8_panics mime0 fsBadExt [] none "/srv/a.txt" fdBadExt
        (by decide) (by decide)).2 "/srv/a.txt" helloEtag
      [("/srv/a.txt", helloEtag)] true 5 (by decide) (by decide) (by decide)
      (by decide) (by decide)⟩⟩

/-- C10: the comparison uses only the tag portion of the client ETag: the
result is identical for a weak and a strong client ETag with the same tag,
and a weak client ETag whose tag equals the fingerprint yields `Matched`. -/
theorem c10_weak_flag_ignored (mime : String → Option String) (fs : FS)
    (m : EtagMap) (path : String) (tag : String) (w1 w2 : Bool) :
    fromFn mime fs m (some ⟨w1, tag⟩) path
      = fromFn mime fs m (some ⟨w2, tag⟩) path ∧
    (∀ fd s etag m2 hsh, fs path = .ok fd → fd.isFile = true →
      fd.pathStr = some s →
      computeEtag m s fd = .ok (etag, m2, hsh) → tag = etag →
      (fromFn mime fs m (some ⟨true, tag⟩) path).result =
        .ok { data := none, is_etag_match := true, etag := etag,
              content_type := none, content_length := none }) := by
  constructor
  · cases hfs : fs path with
    | error e => rw [fromFn_fsError hfs, fromFn_fsError hfs]
    | ok fd =>
      cases hfile : fd.isFile with
      | false => rw [fromFn_notFile hfs hfile, fromFn_notFile hfs hfile]
      | true =>
        cases hstr : fd.pathStr with
        | none => rw [fromFn_badPath hfs hfile hstr, fromFn_badPath hfs hfile hstr]
        | some s =>
          rw [fromFn_eq hfs hfile hstr, fromFn_eq hfs hfile hstr]
          cases hce : computeEtag m s fd with
          | error e => rfl
          | ok t =>
            obtain ⟨etag, m2, hashed⟩ := t
            dsimp only
            rw [buildResponse_weak_indep w1 w2]
  · intro fd s etag m2 hsh hfs hfile hstr hce htag
    have hmatch : is_etag_match_of (some ⟨true, tag⟩) etag = true := by
      simp [is_etag_match_of, htag]
    rw [fromFn_eq hfs hfile hstr, hce]
    show (buildResponse mime fd (some ⟨true, tag⟩) etag).1 = _
    rw [buildResponse_matched hmatch]

/-- C10 witness: a weak ETag `W/F(hello)` matches `/srv/a.txt` exactly like a
strong one. -/
theorem c10_witness :
    fromFn mime0 fs0 [] (some ⟨true, helloEtag⟩) "/srv/a.txt"
      = fromFn mime0 fs0 [] (some ⟨false, helloEtag⟩) "/srv/a.txt" ∧
    (fs0 "/srv/a.txt" = .ok fdHello ∧ fdHello.isFile = true ∧
      fdHello.pathStr = some "/srv/a.txt" ∧
      computeEtag [] "/srv/a.txt" fdHello
        = .ok (helloEtag, [("/srv/a.txt", helloEtag)], true) ∧
      (fromFn mime0 fs0 [] (some ⟨true, helloEtag⟩) "/srv/a.txt").result =
        .ok { data := none, is_etag_match := true, etag := helloEtag,
              content_type := none, content_length := none }) :=
  ⟨(c10_weak_flag_ignored mime0 fs0 [] "/srv/a.txt" helloEtag true false).1,
   ⟨by decide, by decide, by decide, by decide,
    (c10_weak_flag_ignored mime0 fs0 [] "/srv/a.txt" helloEtag true false).2
      fdHello "/srv/a.txt" helloEtag [("/srv/a.txt", helloEtag)] true
      (by decide) (by decide) (by decide) (by decide) rfl⟩⟩

end EtaggedFile
